import Mathlib

/-!
Shallow embedding of the event-indexing engine of `evm-tvl-aggregator`
(`internal/indexer/processors.go`, `internal/indexer/indexer.go`,
`internal/indexer/storage.go`).

Modelling conventions:
- 32-byte hashes and 20-byte addresses are represented as `Nat`; the
  keccak-256 event-signature constants of the Go code are opaque, pairwise
  distinct `Nat` stand-ins (only their identity/distinctness is used).
- byte slices (`[]byte`) are `List Nat`; Go's `big.Int.SetBytes` is the
  big-endian fold `beNat`, and `big.Int.String` on the result is `Nat.repr`
  (base-10, non-negative).
- fallible Go returns `(*Event, error)` become `DecodeResult`; a Go runtime
  panic (out-of-range slice or index) is the explicit `panicked` outcome,
  since the repository contains no `recover`.
-/

namespace EvmTvl

abbrev Hash := Nat
abbrev Address := Nat

/-- Opaque stand-in for keccak256("Swap(address,uint256,uint256,uint256,uint256,address)"). -/
def swapSig : Hash := 1

/-- Opaque stand-in for keccak256("Mint(address,uint256,uint256)"). -/
def mintSig : Hash := 2

/-- Opaque stand-in for keccak256("Burn(address,uint256,uint256,address)"). -/
def burnSig : Hash := 3

/-- Opaque stand-in for keccak256("Sync(uint112,uint112)"). -/
def syncSig : Hash := 4

/-- Opaque stand-in for keccak256("Supply(address,address,address,uint256,uint16)"). -/
def supplySig : Hash := 5

/-- Opaque stand-in for keccak256("Withdraw(address,address,address,uint256)"). -/
def withdrawSig : Hash := 6

/-- Opaque stand-in for keccak256("Borrow(address,address,address,uint256,uint8,uint256,uint16)"). -/
def borrowSig : Hash := 7

/-- Opaque stand-in for keccak256("Repay(address,address,address,uint256,bool)"). -/
def repaySig : Hash := 8

/-- Opaque stand-in for keccak256("Transfer(address,address,uint256)"). -/
def transferSig : Hash := 9

/-- Values stored in the Go `EventData = map[string]interface{}`: the
processors only ever store `string`s and `common.Address`es. -/
inductive EventValue where
  | str (s : String)
  | addr (a : Address)
deriving DecidableEq

/-- go-ethereum `types.Log`, restricted to the fields the indexer reads. -/
structure Log where
  address : Address
  topics : List Hash
  data : List Nat
  blockNumber : Nat
  txHash : Nat
  blockHash : Nat
  index : Nat
deriving DecidableEq

/-- `internal/indexer/models.go` `Event`. The DB-assigned `ID` and the
ingestion `Timestamp` are never set by the decoders and default to 0.
`EventData` (an unordered Go map) is an association list queried with
`List.lookup`. -/
structure Event where
  id : Nat := 0
  chain : String := ""
  blockNumber : Nat := 0
  blockHash : Nat := 0
  transactionHash : Nat := 0
  logIndex : Nat := 0
  address : Address := 0
  eventName : String := ""
  protocol : String := ""
  data : List (String × EventValue) := []
  timestamp : Nat := 0
deriving DecidableEq

/-- Big-endian byte-list interpretation, i.e. Go `new(big.Int).SetBytes(bs)`. -/
def beNat (bs : List Nat) : Nat := bs.foldl (fun acc b => acc * 256 + b) 0

/-- The i-th consecutive 32-byte word of a payload, i.e. Go `data[32*i : 32*i+32]`. -/
def word (data : List Nat) (i : Nat) : List Nat := (data.drop (32 * i)).take 32

/-- go-ethereum `common.BytesToAddress(h.Bytes())` for a 32-byte topic `h`:
keeps the rightmost 20 bytes, i.e. the value modulo 2^160. -/
def bytesToAddress (t : Hash) : Address := t % 2 ^ 160

/-- Stand-in for go-ethereum `common.Address.Hex()` (an injective textual
rendering of the address; checksum casing is irrelevant to the claims). -/
def addressHex (a : Address) : String := "0x" ++ Nat.repr a

/-- Outcome of a Go `Process(log) (*Event, error)` call:
`ok e` = `(e, nil)`, `err m` = `(nil, error)`, `skip` = the `(nil, nil)`
sentinel, `panicked m` = a runtime panic escaping the call. -/
inductive DecodeResult where
  | ok (e : Event)
  | err (msg : String)
  | skip
  | panicked (msg : String)
deriving DecidableEq

/-- The event skeleton every processor builds before its `switch`
(block/tx/log coordinates plus the protocol name; `Chain` is set later by
`processLog`). -/
def baseEvent (protocolName : String) (log : Log) : Event :=
  { blockNumber := log.blockNumber
    blockHash := log.blockHash
    transactionHash := log.txHash
    logIndex := log.index
    address := log.address
    protocol := protocolName }

/-! UniswapV2Processor (`processors.go`).  Each handler guards the data
length exactly where the Go code does; reads of `Topics[i]` that the Go
code performs without a bounds check are modelled as `panicked` when out
of range. -/

/-- `UniswapV2Processor.processSwap`. -/
def uniswapV2ProcessSwap (event : Event) (log : Log) : DecodeResult :=
  let event := { event with eventName := "Swap" }
  if log.data.length < 128 then .err "invalid swap data"
  else if log.topics.length < 3 then .panicked "index out of range"
  else
    .ok { event with data :=
      [ ("sender", .addr (bytesToAddress (log.topics.getD 1 0)))
      , ("to", .addr (bytesToAddress (log.topics.getD 2 0)))
      , ("amount0_in", .str (Nat.repr (beNat (word log.data 0))))
      , ("amount1_in", .str (Nat.repr (beNat (word log.data 1))))
      , ("amount0_out", .str (Nat.repr (beNat (word log.data 2))))
      , ("amount1_out", .str (Nat.repr (beNat (word log.data 3)))) ] }

/-- `UniswapV2Processor.processMint`. -/
def uniswapV2ProcessMint (event : Event) (log : Log) : DecodeResult :=
  let event := { event with eventName := "Mint" }
  if log.data.length < 64 then .err "invalid mint data"
  else if log.topics.length < 2 then .panicked "index out of range"
  else
    .ok { event with data :=
      [ ("sender", .addr (bytesToAddress (log.topics.getD 1 0)))
      , ("amount0", .str (Nat.repr (beNat (word log.data 0))))
      , ("amount1", .str (Nat.repr (beNat (word log.data 1)))) ] }

/-- `UniswapV2Processor.processBurn`. -/
def uniswapV2ProcessBurn (event : Event) (log : Log) : DecodeResult :=
  let event := { event with eventName := "Burn" }
  if log.data.length < 64 then .err "invalid burn data"
  else if log.topics.length < 3 then .panicked "index out of range"
  else
    .ok { event with data :=
      [ ("sender", .addr (bytesToAddress (log.topics.getD 1 0)))
      , ("to", .addr (bytesToAddress (log.topics.getD 2 0)))
      , ("amount0", .str (Nat.repr (beNat (word log.data 0))))
      , ("amount1", .str (Nat.repr (beNat (word log.data 1)))) ] }

/-- `UniswapV2Processor.processSync`. -/
def uniswapV2ProcessSync (event : Event) (log : Log) : DecodeResult :=
  let event := { event with eventName := "Sync" }
  if log.data.length < 64 then .err "invalid sync data"
  else
    .ok { event with data :=
      [ ("reserve0", .str (Nat.repr (beNat (word log.data 0))))
      , ("reserve1", .str (Nat.repr (beNat (word log.data 1)))) ] }

/-- `UniswapV2Processor.Process`. -/
def uniswapV2Process (log : Log) : DecodeResult :=
  if log.topics.length = 0 then .err "no topics in log"
  else
    let event := baseEvent "uniswap-v2" log
    let t0 := log.topics.headD 0
    if t0 = swapSig then uniswapV2ProcessSwap event log
    else if t0 = mintSig then uniswapV2ProcessMint event log
    else if t0 = burnSig then uniswapV2ProcessBurn event log
    else if t0 = syncSig then uniswapV2ProcessSync event log
    else .err "unknown event signature"

/-! AaveV3Processor (`processors.go`).  All four handlers check
`len(log.Topics) < 4` but then compute `log.Data[0:32]` with no length
check: when the payload is shorter than 32 bytes that Go slice expression
panics. -/

/-- `AaveV3Processor.processSupply`. -/
def aaveV3ProcessSupply (event : Event) (log : Log) : DecodeResult :=
  let event := { event with eventName := "Supply" }
  if log.topics.length < 4 then .err "invalid supply topics"
  else if log.data.length < 32 then .panicked "slice bounds out of range"
  else
    .ok { event with data :=
      [ ("reserve", .addr (bytesToAddress (log.topics.getD 1 0)))
      , ("user", .addr (bytesToAddress (log.topics.getD 2 0)))
      , ("on_behalf", .addr (bytesToAddress (log.topics.getD 3 0)))
      , ("amount", .str (Nat.repr (beNat (word log.data 0)))) ] }

/-- `AaveV3Processor.processWithdraw`. -/
def aaveV3ProcessWithdraw (event : Event) (log : Log) : DecodeResult :=
  let event := { event with eventName := "Withdraw" }
  if log.topics.length < 4 then .err "invalid withdraw topics"
  else if log.data.length < 32 then .panicked "slice bounds out of range"
  else
    .ok { event with data :=
      [ ("reserve", .addr (bytesToAddress (log.topics.getD 1 0)))
      , ("user", .addr (bytesToAddress (log.topics.getD 2 0)))
      , ("to", .addr (bytesToAddress (log.topics.getD 3 0)))
      , ("amount", .str (Nat.repr (beNat (word log.data 0)))) ] }

/-- `AaveV3Processor.processBorrow`. -/
def aaveV3ProcessBorrow (event : Event) (log : Log) : DecodeResult :=
  let event := { event with eventName := "Borrow" }
  if log.topics.length < 4 then .err "invalid borrow topics"
  else if log.data.length < 32 then .panicked "slice bounds out of range"
  else
    .ok { event with data :=
      [ ("reserve", .addr (bytesToAddress (log.topics.getD 1 0)))
      , ("on_behalf", .addr (bytesToAddress (log.topics.getD 2 0)))
      , ("user", .addr (bytesToAddress (log.topics.getD 3 0)))
      , ("amount", .str (Nat.repr (beNat (word log.data 0)))) ] }

/-- `AaveV3Processor.processRepay`. -/
def aaveV3ProcessRepay (event : Event) (log : Log) : DecodeResult :=
  let event := { event with eventName := "Repay" }
  if log.topics.length < 4 then .err "invalid repay topics"
  else if log.data.length < 32 then .panicked "slice bounds out of range"
  else
    .ok { event with data :=
      [ ("reserve", .addr (bytesToAddress (log.topics.getD 1 0)))
      , ("user", .addr (bytesToAddress (log.topics.getD 2 0)))
      , ("repayer", .addr (bytesToAddress (log.topics.getD 3 0)))
      , ("amount", .str (Nat.repr (beNat (word log.data 0)))) ] }

/-- `AaveV3Processor.Process`. -/
def aaveV3Process (log : Log) : DecodeResult :=
  if log.topics.length = 0 then .err "no topics in log"
  else
    let event := baseEvent "aave-v3" log
    let t0 := log.topics.headD 0
    if t0 = supplySig then aaveV3ProcessSupply event log
    else if t0 = withdrawSig then aaveV3ProcessWithdraw event log
    else if t0 = borrowSig then aaveV3ProcessBorrow event log
    else if t0 = repaySig then aaveV3ProcessRepay event log
    else .err "unknown event signature"

/-- `GenericERC20Processor` configuration (protocol name and tracked tokens). -/
structure GenericERC20Config where
  protocolName : String
  tokens : List Address
deriving DecidableEq

/-- `GenericERC20Processor.Process`: the tracked-address membership loop
runs first and returns the `(nil, nil)` sentinel for untracked addresses;
only then are the topics validated.  `SetBytes(log.Data)` accepts any
length, so no panic is possible here. -/
def genericERC20Process (p : GenericERC20Config) (log : Log) : DecodeResult :=
  if log.address ∈ p.tokens then
    if log.topics.length < 3 then .err "invalid transfer topics"
    else
      .ok { baseEvent p.protocolName log with
        eventName := "Transfer"
        data :=
          [ ("from", .addr (bytesToAddress (log.topics.getD 1 0)))
          , ("to", .addr (bytesToAddress (log.topics.getD 2 0)))
          , ("amount", .str (Nat.repr (beNat log.data)))
          , ("token", .str (addressHex log.address)) ] }
  else .skip

/-! Registry and dispatch (`indexer.go`).  The Go registry is
`processors map[string]EventProcessor`, keyed by protocol name, and
`processLog` iterates it with `for _, processor := range idx.processors`.
Go map iteration order is unspecified and randomized per iteration, so the
dispatch scan order is modelled as an explicit `List Processor` parameter:
any permutation of the registered processors is an admissible order for a
given run of `processLog`. -/

/-- One registered processor: protocol name, claimed signature hashes, and
the decode function. -/
structure Processor where
  name : String
  signatures : List Hash
  process : Log → DecodeResult

/-- The repository's Uniswap V2 processor as a registry entry. -/
def uniswapV2Processor : Processor :=
  { name := "uniswap-v2"
    signatures := [swapSig, mintSig, burnSig, syncSig]
    process := uniswapV2Process }

/-- The repository's Aave V3 processor as a registry entry. -/
def aaveV3Processor : Processor :=
  { name := "aave-v3"
    signatures := [supplySig, withdrawSig, borrowSig, repaySig]
    process := aaveV3Process }

/-- The repository's generic ERC20 processor as a registry entry. -/
def genericERC20Processor (cfg : GenericERC20Config) : Processor :=
  { name := cfg.protocolName
    signatures := [transferSig]
    process := genericERC20Process cfg }

/-- Result of `Indexer.processLog` (which returns `*Event`): either an
event, or `nil`, or a panic propagating out of a decode call. -/
inductive Dispatched where
  | event (e : Event)
  | nothing
  | panicked (msg : String)
deriving DecidableEq

/-- The inner loop of `Indexer.processLog` over one processor's signature
list.  `some d` is an early `return` from `processLog`; `none` means the
loop fell through (so the scan continues with the next processor).
On a decode error the Go code logs it and returns `nil` — it does not try
further processors; on the `(nil, nil)` sentinel it keeps scanning. -/
def scanSignatures (chain : String) (p : Processor) (log : Log) :
    List Hash → Option Dispatched
  | [] => none
  | sig :: rest =>
    if 0 < log.topics.length ∧ log.topics.headD 0 = sig then
      match p.process log with
      | .err _ => some .nothing
      | .ok e => some (.event { e with chain := chain })
      | .skip => scanSignatures chain p log rest
      | .panicked m => some (.panicked m)
    else scanSignatures chain p log rest

/-- `Indexer.processLog`, parameterized by one iteration order of the
processor map. -/
def processLog (chain : String) (log : Log) : List Processor → Dispatched
  | [] => .nothing
  | p :: rest =>
    match scanSignatures chain p log p.signatures with
    | some d => d
    | none => processLog chain log rest

/-- `Indexer.getAllEventSignatures`: the deduplicated union of all
registered signature sets.  The Go code accumulates into a
`map[common.Hash]bool` and then collects the keys, so the order of the
returned slice is map-iteration order; `dedup` of the concatenation is one
admissible order, and the only facts used downstream (emptiness,
membership) are order-independent. -/
def getAllEventSignatures (procs : List Processor) : List Hash :=
  ((procs.map (fun p => p.signatures)).flatten).dedup

/-! Batch processing (`Indexer.processBatch`).  The storage collaborator
is abstracted by the outcome functions `se` (SaveEvents) and `sb`
(SaveBlock); the RPC fetch by its result.  Besides the Go return value the
model emits the trace of storage calls the function performed, in order. -/

/-- `internal/indexer/models.go` `Block` (the checkpoint marker row). -/
structure Block where
  id : Nat := 0
  chain : String := ""
  number : Nat := 0
  hash : Nat := 0
  timestamp : Nat := 0
deriving DecidableEq

/-- A storage operation performed by `processBatch`. -/
inductive StorageCall where
  | saveEvents (evs : List Event)
  | saveBlock (b : Block)
deriving DecidableEq

/-- Go-level outcome of `processBatch`: normal return (`ok`/`error msg`) or
a panic escaping from a decode call. -/
inductive BatchResult where
  | ok
  | error (msg : String)
  | panicked (msg : String)
deriving DecidableEq

/-- The event-collection loop of `processBatch`: dispatch every fetched
log in order, keeping the non-nil events; a panic in any dispatch aborts
the whole batch. -/
def collectEvents (chain : String) (procs : List Processor) :
    List Log → Except String (List Event)
  | [] => .ok []
  | l :: ls =>
    match processLog chain l procs with
    | .panicked m => .error m
    | .event e =>
      match collectEvents chain procs ls with
      | .ok evs => .ok (e :: evs)
      | .error m => .error m
    | .nothing => collectEvents chain procs ls

/-- `Indexer.processBatch` for the window ending at `toB`.  `fetchRes` is
the result of `client.GetLogs` (already filtered by the aggregated
signatures and the window bounds), `se`/`sb` the storage outcomes, `now`
the wall-clock timestamp used for the checkpoint `Block`. -/
def processBatch (procs : List Processor) (chain : String)
    (fetchRes : Except String (List Log))
    (se : List Event → Except String Unit)
    (sb : Block → Except String Unit)
    (toB : Nat) (now : Nat) : BatchResult × List StorageCall :=
  if (getAllEventSignatures procs).length = 0 then (.ok, [])
  else
    match fetchRes with
    | .error e => (.error ("failed to get logs: " ++ e), [])
    | .ok logs =>
      match collectEvents chain procs logs with
      | .error m => (.panicked m, [])
      | .ok events =>
        let blk : Block := { chain := chain, number := toB, timestamp := now }
        if events.length = 0 then
          match sb blk with
          | .error e => (.error ("failed to save block: " ++ e), [.saveBlock blk])
          | .ok _ => (.ok, [.saveBlock blk])
        else
          match se events with
          | .error e => (.error ("failed to save events: " ++ e), [.saveEvents events])
          | .ok _ =>
            match sb blk with
            | .error e =>
              (.error ("failed to save block: " ++ e), [.saveEvents events, .saveBlock blk])
            | .ok _ => (.ok, [.saveEvents events, .saveBlock blk])

/-! Window generation (`Indexer.indexHistoricalEvents`).  The producer
loop is `for fromBlock < currentBlock { toBlock := fromBlock + batchSize - 1;
if toBlock > currentBlock { toBlock = currentBlock }; emit; fromBlock =
toBlock + 1 }`.  The recursion is driven by fuel `c - f`, which is enough
for any positive batch size; for `batchSize = 0` the Go loop does not
terminate, and the fuel model truncates that divergence (all theorems
assume a positive batch size). -/

/-- The fuelled producer loop body. -/
def genWindowsAux (bs c : Nat) : Nat → Nat → List (Nat × Nat)
  | 0, _ => []
  | fuel + 1, f =>
    if f < c then
      (f, min (f + bs - 1) c) :: genWindowsAux bs c fuel (min (f + bs - 1) c + 1)
    else []

/-- The sequence of block windows `indexHistoricalEvents` sends to the
worker channel, for start block `f`, effective end `c` and batch size `bs`. -/
def genWindows (f c bs : Nat) : List (Nat × Nat) :=
  genWindowsAux bs c (c - f) f

/-- The effective end block computed at the top of
`indexHistoricalEvents`: `currentBlock -= BlockConfirmations` guarded by
`currentBlock > BlockConfirmations`. -/
def effectiveEnd (head conf : Nat) : Nat :=
  if conf < head then head - conf else head

/-- Modelled from the spec (for refinement comparison only, not from the
source): the claimed formula "head − confirmations, clamped to ≥ start
block". -/
def effectiveEndClaimed (head conf startBlock : Nat) : Nat :=
  max (head - conf) startBlock

/-- `Indexer.getStartBlock`.  `lastIndexed` is the result of
`storage.GetLastIndexedBlock` (`.error` = storage error, `.ok 0` = no
checkpoint), `head` the current block height, `cfgStart` the configured
`StartFromBlock` lookback (0 meaning the 1000-block default). -/
def getStartBlock (lastIndexed : Except String Nat) (head cfgStart : Nat) : Nat :=
  match lastIndexed with
  | .ok n =>
    if 0 < n then n + 1
    else
      let startFrom := if cfgStart = 0 then 1000 else cfgStart
      if startFrom < head then head - startFrom else 0
  | .error _ =>
    let startFrom := if cfgStart = 0 then 1000 else cfgStart
    if startFrom < head then head - startFrom else 0

/-! MemoryStorage (`storage.go`).  Go maps with zero-value reads become
total functions with the corresponding defaults. -/

/-- `MemoryStorage`: `blocks` (chain → number → block), `lastBlocks`
(chain → last block number, 0 when absent) and `events` (chain → stored
events, in insertion order). -/
structure MemoryStorage where
  blocks : String → Nat → Option Block
  lastBlocks : String → Nat
  events : String → List Event

/-- `NewMemoryStorage()`. -/
def MemoryStorage.empty : MemoryStorage :=
  { blocks := fun _ _ => none
    lastBlocks := fun _ => 0
    events := fun _ => [] }

/-- `MemoryStorage.SaveBlock`: stores the block and raises the per-chain
last-block watermark only when the new number is strictly larger. -/
def MemoryStorage.saveBlock (s : MemoryStorage) (b : Block) : MemoryStorage :=
  { s with
    blocks := fun c n =>
      if c = b.chain ∧ n = b.number then some b else s.blocks c n
    lastBlocks := fun c =>
      if c = b.chain then
        if s.lastBlocks b.chain < b.number then b.number else s.lastBlocks b.chain
      else s.lastBlocks c }

/-- `MemoryStorage.GetLastIndexedBlock`. -/
def MemoryStorage.getLastIndexedBlock (s : MemoryStorage) (chain : String) : Nat :=
  s.lastBlocks chain

/-- `MemoryStorage.SaveEvents`: appends every event to its chain's slice,
unconditionally. -/
def MemoryStorage.saveEvents (s : MemoryStorage) (evs : List Event) : MemoryStorage :=
  evs.foldl
    (fun s e =>
      { s with events := fun c =>
          if c = e.chain then s.events c ++ [e] else s.events c })
    s

/-- The event identity key (chain, transaction hash, log index). -/
def identKey (e : Event) : String × Nat × Nat :=
  (e.chain, e.transactionHash, e.logIndex)

/-! Concrete fixtures used by evaluation theorems and witnesses. -/

/-- A synthetic decoder claiming signature hash 100, yielding events
tagged with protocol "d1". -/
def decoderD1 : Processor :=
  { name := "d1", signatures := [100], process := fun log => .ok (baseEvent "d1" log) }

/-- A synthetic decoder with a distinct protocol name, also claiming
signature hash 100, yielding events tagged with protocol "d2". -/
def decoderD2 : Processor :=
  { name := "d2", signatures := [100], process := fun log => .ok (baseEvent "d2" log) }

/-- A log whose primary topic is the signature 100 claimed by both
`decoderD1` and `decoderD2`. -/
def logShared : Log :=
  { address := 0, topics := [100], data := [], blockNumber := 7
    txHash := 8, blockHash := 9, index := 0 }

/-- An Aave V3 Supply log with the four required topics but an empty data
payload. -/
def logSupplyShortData : Log :=
  { address := 50, topics := [supplySig, 11, 12, 13], data := [], blockNumber := 1
    txHash := 2, blockHash := 3, index := 4 }

/-- A well-formed Uniswap V2 Swap log: three topics and a 128-byte payload
whose four 32-byte words are 1, 2, 3, 4. -/
def logSwap : Log :=
  { address := 60, topics := [swapSig, 21, 22]
    data := List.replicate 31 0 ++ [1] ++ List.replicate 31 0 ++ [2] ++
            List.replicate 31 0 ++ [3] ++ List.replicate 31 0 ++ [4]
    blockNumber := 5, txHash := 6, blockHash := 7, index := 8 }

/-- An ERC20 Transfer-shaped event from an untracked address, with fewer
than three topics. -/
def logUntracked : Log :=
  { address := 1, topics := [transferSig], data := [255], blockNumber := 10
    txHash := 11, blockHash := 12, index := 13 }

/-- A decoded event used to probe `MemoryStorage.saveEvents`. -/
def eventDup : Event :=
  { chain := "ethereum", blockNumber := 100, blockHash := 41, transactionHash := 2748
    logIndex := 0, address := 60, eventName := "Swap", protocol := "uniswap-v2" }

/-- The event `logSwap` decodes to (with the chain stamped by dispatch). -/
def swapEventDecoded : Event :=
  { chain := "ethereum", blockNumber := 5, blockHash := 7, transactionHash := 6
    logIndex := 8, address := 60, eventName := "Swap", protocol := "uniswap-v2"
    data :=
      [ ("sender", .addr 21), ("to", .addr 22)
      , ("amount0_in", .str "1"), ("amount1_in", .str "2")
      , ("amount0_out", .str "3"), ("amount1_out", .str "4") ] }

/-- A SaveEvents outcome that always fails. -/
def seFail : List Event → Except String Unit := fun _ => .error "disk full"

/-- A SaveBlock outcome that always succeeds. -/
def sbOk : Block → Except String Unit := fun _ => .ok ()

end EvmTvl

namespace EvmTvl

/-! ## Claim theorems -/

/-- C8 (code evaluation at the failing input): an Aave V3 Supply log with
the required four topics but an empty data payload makes
`AaveV3Processor.Process` panic on the unchecked `log.Data[0:32]` slice —
it does not return a decode error, so the log is not skipped-and-logged;
the panic escapes the worker (the repository has no `recover`). -/
theorem aave_supply_short_data_panics :
    aaveV3Process logSupplyShortData = .panicked "slice bounds out of range" ∧
    ∀ msg, aaveV3Process logSupplyShortData ≠ .err msg := by
  refine ⟨by decide, ?_⟩
  intro msg h
  have h1 : aaveV3Process logSupplyShortData = .panicked "slice bounds out of range" := by
    decide
  rw [h1] at h
  exact DecodeResult.noConfusion h

/-- C10: `GenericERC20Processor.Process` returns the `(nil, nil)` sentinel
for every log whose emitting address is not in the tracked token list,
regardless of the log's topics and data: the tracked-address check runs
before any structural validation. -/
theorem untracked_address_skipped (cfg : GenericERC20Config) (log : Log)
    (h : log.address ∉ cfg.tokens) :
    genericERC20Process cfg log = .skip := by
  unfold genericERC20Process
  simp [h]

/-- Witness for C10: an untracked Transfer log with only one topic is
silently skipped, not rejected. -/
theorem untracked_address_skipped_witness :
    logUntracked.address ∉ (⟨"erc20", [2, 3]⟩ : GenericERC20Config).tokens ∧
    logUntracked.topics.length < 3 ∧
    genericERC20Process ⟨"erc20", [2, 3]⟩ logUntracked = .skip :=
  ⟨by decide, by decide,
    untracked_address_skipped ⟨"erc20", [2, 3]⟩ logUntracked (by decide)⟩

/-- C9: for every log whose primary topic is the Swap signature and which
has at least three topics, a payload of at least 128 bytes decodes to an
event binding `amount0_in`, `amount1_in`, `amount0_out`, `amount1_out` to
the base-10 strings of the four consecutive 32-byte big-endian words and
`sender`/`to` to the addresses taken from topics 1 and 2, while a payload
shorter than 128 bytes yields an error. -/
theorem swap_decode_correct (log : Log)
    (h0 : log.topics.headD 0 = swapSig) (h3 : 3 ≤ log.topics.length) :
    (128 ≤ log.data.length →
      ∃ e, uniswapV2Process log = .ok e ∧
        e.data.lookup "amount0_in" = some (.str (Nat.repr (beNat (word log.data 0)))) ∧
        e.data.lookup "amount1_in" = some (.str (Nat.repr (beNat (word log.data 1)))) ∧
        e.data.lookup "amount0_out" = some (.str (Nat.repr (beNat (word log.data 2)))) ∧
        e.data.lookup "amount1_out" = some (.str (Nat.repr (beNat (word log.data 3)))) ∧
        e.data.lookup "sender" = some (.addr (bytesToAddress (log.topics.getD 1 0))) ∧
        e.data.lookup "to" = some (.addr (bytesToAddress (log.topics.getD 2 0)))) ∧
    (log.data.length < 128 → ∃ msg, uniswapV2Process log = .err msg) := by
  have hlen : ¬ log.topics.length = 0 := by omega
  have hlt : ¬ log.topics.length < 3 := by omega
  have heval : uniswapV2Process log =
      uniswapV2ProcessSwap (baseEvent "uniswap-v2" log) log := by
    simp only [uniswapV2Process]
    rw [if_neg hlen, h0, if_pos rfl]
  constructor
  · intro hdata
    have hd : ¬ log.data.length < 128 := by omega
    have hswap : uniswapV2ProcessSwap (baseEvent "uniswap-v2" log) log =
        .ok { baseEvent "uniswap-v2" log with
          eventName := "Swap"
          data :=
            [ ("sender", .addr (bytesToAddress (log.topics.getD 1 0)))
            , ("to", .addr (bytesToAddress (log.topics.getD 2 0)))
            , ("amount0_in", .str (Nat.repr (beNat (word log.data 0))))
            , ("amount1_in", .str (Nat.repr (beNat (word log.data 1))))
            , ("amount0_out", .str (Nat.repr (beNat (word log.data 2))))
            , ("amount1_out", .str (Nat.repr (beNat (word log.data 3)))) ] } := by
      simp only [uniswapV2ProcessSwap]
      rw [if_neg hd, if_neg hlt]
    exact ⟨_, heval.trans hswap, rfl, rfl, rfl, rfl, rfl, rfl⟩
  · intro hdata
    refine ⟨"invalid swap data", ?_⟩
    rw [heval]
    simp only [uniswapV2ProcessSwap]
    rw [if_pos hdata]

/-- Witness for C9: the concrete Swap log `logSwap` (words 1,2,3,4,
topics 21 and 22) satisfies the hypotheses and decodes as claimed. -/
theorem swap_decode_correct_witness :
    logSwap.topics.headD 0 = swapSig ∧ 3 ≤ logSwap.topics.length ∧
    ((128 ≤ logSwap.data.length →
      ∃ e, uniswapV2Process logSwap = .ok e ∧
        e.data.lookup "amount0_in" = some (.str (Nat.repr (beNat (word logSwap.data 0)))) ∧
        e.data.lookup "amount1_in" = some (.str (Nat.repr (beNat (word logSwap.data 1)))) ∧
        e.data.lookup "amount0_out" = some (.str (Nat.repr (beNat (word logSwap.data 2)))) ∧
        e.data.lookup "amount1_out" = some (.str (Nat.repr (beNat (word logSwap.data 3)))) ∧
        e.data.lookup "sender" = some (.addr (bytesToAddress (logSwap.topics.getD 1 0))) ∧
        e.data.lookup "to" = some (.addr (bytesToAddress (logSwap.topics.getD 2 0)))) ∧
    (logSwap.data.length < 128 → ∃ msg, uniswapV2Process logSwap = .err msg)) :=
  ⟨by decide, by decide, swap_decode_correct logSwap (by decide) (by decide)⟩

/-- C1 (code evaluation at the failing input): the registry is a Go map
iterated in unspecified order, so with two decoders that both claim
signature 100 registered under distinct protocol names, one admissible
iteration order routes the shared-signature log to `decoderD1` and another
admissible order of the same registry routes it to `decoderD2`: dispatch
is neither registration-ordered nor stable across runs. -/
theorem dispatch_depends_on_map_iteration_order :
    (∃ e₁, processLog "ethereum" logShared [decoderD1, decoderD2] = .event e₁ ∧
      e₁.protocol = "d1") ∧
    (∃ e₂, processLog "ethereum" logShared [decoderD2, decoderD1] = .event e₂ ∧
      e₂.protocol = "d2") ∧
    processLog "ethereum" logShared [decoderD1, decoderD2] ≠
      processLog "ethereum" logShared [decoderD2, decoderD1] := by
  refine ⟨⟨_, rfl, rfl⟩, ⟨_, rfl, rfl⟩, by decide⟩

/-- C7 (code evaluation at the failing input): `MemoryStorage.SaveEvents`
appends unconditionally, so saving the same single-event batch twice
stores two records sharing the identity key (chain, txHash, logIndex) —
it is not idempotent. -/
theorem memory_save_events_duplicates :
    ((MemoryStorage.empty.saveEvents [eventDup]).events "ethereum") = [eventDup] ∧
    (((MemoryStorage.empty.saveEvents [eventDup]).saveEvents [eventDup]).events "ethereum")
      = [eventDup, eventDup] ∧
    identKey eventDup = identKey eventDup := by
  refine ⟨by decide, by decide, rfl⟩

/-- C6: the per-chain watermark read back by
`MemoryStorage.GetLastIndexedBlock` never decreases, neither across a
single `SaveBlock` call (with an arbitrary, possibly smaller, block
number) nor across any sequence of such calls. -/
theorem checkpoint_monotone :
    (∀ (s : MemoryStorage) (b : Block) (chain : String),
      s.getLastIndexedBlock chain ≤ (s.saveBlock b).getLastIndexedBlock chain) ∧
    (∀ (bs : List Block) (s : MemoryStorage) (chain : String),
      s.getLastIndexedBlock chain ≤
        (bs.foldl MemoryStorage.saveBlock s).getLastIndexedBlock chain) := by
  have step : ∀ (s : MemoryStorage) (b : Block) (chain : String),
      s.getLastIndexedBlock chain ≤ (s.saveBlock b).getLastIndexedBlock chain := by
    intro s b chain
    simp only [MemoryStorage.saveBlock, MemoryStorage.getLastIndexedBlock]
    by_cases hc : chain = b.chain
    · rw [if_pos hc, hc]
      split <;> omega
    · rw [if_neg hc]
  refine ⟨step, ?_⟩
  intro bs
  induction bs with
  | nil => intro s chain; exact le_refl _
  | cons b rest ih =>
    intro s chain
    exact le_trans (step s b chain) (ih (s.saveBlock b) chain)

/-- C5: a stored checkpoint `n > 0` resumes at `n + 1`; with no checkpoint
(`0` stored or a storage error) the start block is the head minus the
configured lookback (1000 when the configured value is 0), and 0 when the
head does not exceed the lookback. -/
theorem start_block_resolution :
    (∀ (n head cfg : Nat), 0 < n →
      getStartBlock (.ok n) head cfg = n + 1) ∧
    (∀ (r : Except String Nat) (head cfg : Nat),
      (r = .ok 0 ∨ ∃ e, r = .error e) →
      getStartBlock r head cfg =
        if (if cfg = 0 then 1000 else cfg) < head
        then head - (if cfg = 0 then 1000 else cfg) else 0) := by
  constructor
  · intro n head cfg hn
    simp only [getStartBlock]
    rw [if_pos hn]
  · intro r head cfg hr
    rcases hr with h0 | ⟨e, he⟩
    · subst h0
      simp only [getStartBlock]
      rw [if_neg (by omega)]
    · subst he
      simp only [getStartBlock]

/-- Witness for C5: checkpoint 41 resumes at 42; a zero checkpoint with
default lookback starts at 5000 − 1000; a storage error with a lookback
exceeding the head starts at 0. -/
theorem start_block_resolution_witness :
    getStartBlock (.ok 41) 100 0 = 42 ∧
    getStartBlock (.ok 0) 5000 0 = 4000 ∧
    getStartBlock (.error "db down") 500 2000 = 0 :=
  ⟨start_block_resolution.1 41 100 0 (by decide),
   (start_block_resolution.2 (.ok 0) 5000 0 (Or.inl rfl)).trans (by decide),
   (start_block_resolution.2 (.error "db down") 500 2000 (Or.inr ⟨_, rfl⟩)).trans
     (by decide)⟩

/-- C4 counterexample: for head 5, confirmations 10 and start block 3 the
code keeps the head (5) because the guard `currentBlock > confirmations`
fails, while the claim's clamped formula gives 3 — the claimed equality is
false at this input. -/
theorem effective_end_counterexample :
    effectiveEnd 5 10 = 5 ∧ effectiveEndClaimed 5 10 3 = 3 ∧
    effectiveEnd 5 10 ≠ effectiveEndClaimed 5 10 3 := by
  decide

/-- C4 amended: the effective end equals head − confirmations when the
head exceeds the confirmations margin — agreeing with the claimed clamped
formula exactly when the start block is at most head − confirmations —
and otherwise equals the head itself; it is never clamped to the start
block. -/
theorem effective_end_amended :
    (∀ head conf startBlock : Nat, conf < head → startBlock ≤ head - conf →
      effectiveEnd head conf = head - conf ∧
      effectiveEnd head conf = effectiveEndClaimed head conf startBlock) ∧
    (∀ head conf : Nat, head ≤ conf → effectiveEnd head conf = head) := by
  constructor
  · intro h c s h1 h2
    unfold effectiveEnd effectiveEndClaimed
    rw [if_pos h1]
    exact ⟨rfl, (max_eq_left h2).symm⟩
  · intro h c h1
    unfold effectiveEnd
    rw [if_neg (by omega)]

/-- Witness for C4 amended: head 10, confirmations 3, start 5 gives
effective end 7; head 2 with confirmations 9 keeps head 2. -/
theorem effective_end_amended_witness :
    (3 < 10 ∧ 5 ≤ 10 - 3 ∧
      (effectiveEnd 10 3 = 10 - 3 ∧ effectiveEnd 10 3 = effectiveEndClaimed 10 3 5)) ∧
    (2 ≤ 9 ∧ effectiveEnd 2 9 = 2) :=
  ⟨⟨by decide, by decide, effective_end_amended.1 10 3 5 (by decide) (by decide)⟩,
   ⟨by decide, effective_end_amended.2 2 9 (by decide)⟩⟩

/-- A non-empty scan result can only come from a non-empty signature list. -/
theorem scanSignatures_some_ne_nil {chain : String} {p : Processor} {log : Log}
    {sigs : List Hash} {d : Dispatched}
    (h : scanSignatures chain p log sigs = some d) : sigs ≠ [] := by
  intro hn
  subst hn
  simp [scanSignatures] at h

/-- A dispatched event implies some registered processor claims at least
one signature. -/
theorem processLog_event_exists_proc {chain : String} {log : Log}
    {procs : List Processor} {e : Event}
    (h : processLog chain log procs = .event e) :
    ∃ p ∈ procs, p.signatures ≠ [] := by
  induction procs with
  | nil => simp [processLog] at h
  | cons p rest ih =>
    simp only [processLog] at h
    cases hscan : scanSignatures chain p log p.signatures with
    | some d =>
      exact ⟨p, List.mem_cons_self p rest, scanSignatures_some_ne_nil hscan⟩
    | none =>
      rw [hscan] at h
      obtain ⟨q, hq, hqs⟩ := ih h
      exact ⟨q, List.mem_cons_of_mem _ hq, hqs⟩

/-- If some registered processor claims a signature, the aggregated
signature set is non-empty. -/
theorem getAllEventSignatures_ne_nil {procs : List Processor}
    (h : ∃ p ∈ procs, p.signatures ≠ []) :
    getAllEventSignatures procs ≠ [] := by
  obtain ⟨p, hp, hs⟩ := h
  obtain ⟨sig, hsig⟩ := List.exists_mem_of_ne_nil _ hs
  have hmem : sig ∈ (procs.map (fun p => p.signatures)).flatten :=
    List.mem_flatten.mpr ⟨p.signatures, List.mem_map_of_mem _ hp, hsig⟩
  exact List.ne_nil_of_mem (List.mem_dedup.mpr hmem)

/-- A non-empty successful event collection contains a log that
dispatched to an event. -/
theorem collectEvents_ne_nil_event {chain : String} {procs : List Processor}
    {logs : List Log} {evs : List Event}
    (h : collectEvents chain procs logs = .ok evs) (hne : evs ≠ []) :
    ∃ l ∈ logs, ∃ e, processLog chain l procs = .event e := by
  induction logs generalizing evs with
  | nil =>
    simp only [collectEvents, Except.ok.injEq] at h
    exact absurd h.symm hne
  | cons l ls ih =>
    simp only [collectEvents] at h
    cases hd : processLog chain l procs with
    | panicked m => rw [hd] at h; exact absurd h (by simp)
    | event e => exact ⟨l, List.mem_cons_self l ls, e, hd⟩
    | nothing =>
      rw [hd] at h
      obtain ⟨l', hl', he⟩ := ih h hne
      exact ⟨l', List.mem_cons_of_mem _ hl', he⟩

/-- C2: in `processBatch`, when the decoded event batch is non-empty and
`SaveEvents` fails, the function returns that error and its storage trace
contains no `SaveBlock` call — the window's checkpoint marker is not
persisted. -/
theorem checkpoint_not_advanced_on_save_events_error
    (procs : List Processor) (chain : String) (logs : List Log)
    (se : List Event → Except String Unit) (sb : Block → Except String Unit)
    (toB now : Nat) (evs : List Event) (emsg : String)
    (hcol : collectEvents chain procs logs = .ok evs)
    (hne : evs ≠ [])
    (hse : se evs = .error emsg) :
    (processBatch procs chain (.ok logs) se sb toB now).1 =
      .error ("failed to save events: " ++ emsg) ∧
    ∀ b, StorageCall.saveBlock b ∉
      (processBatch procs chain (.ok logs) se sb toB now).2 := by
  have hsigs : getAllEventSignatures procs ≠ [] := by
    obtain ⟨l, _, e, hd⟩ := collectEvents_ne_nil_event hcol hne
    exact getAllEventSignatures_ne_nil (processLog_event_exists_proc hd)
  have hlen : ¬ (getAllEventSignatures procs).length = 0 := by
    simpa [List.length_eq_zero] using hsigs
  have hevlen : ¬ evs.length = 0 := by
    simpa [List.length_eq_zero] using hne
  have hpb : processBatch procs chain (.ok logs) se sb toB now =
      (.error ("failed to save events: " ++ emsg), [.saveEvents evs]) := by
    simp only [processBatch]
    rw [if_neg hlen, hcol]
    simp only
    rw [if_neg hevlen, hse]
  rw [hpb]
  exact ⟨rfl, by intro b; simp⟩

set_option maxRecDepth 8192 in
/-- Witness for C2: a one-log batch decoding `logSwap` with a failing
SaveEvents returns the error and issues no SaveBlock call. -/
theorem checkpoint_not_advanced_witness :
    collectEvents "ethereum" [uniswapV2Processor] [logSwap] = .ok [swapEventDecoded] ∧
    seFail [swapEventDecoded] = .error "disk full" ∧
    (processBatch [uniswapV2Processor] "ethereum" (.ok [logSwap]) seFail sbOk 10 99).1 =
      .error ("failed to save events: " ++ "disk full") ∧
    ∀ b, StorageCall.saveBlock b ∉
      (processBatch [uniswapV2Processor] "ethereum" (.ok [logSwap]) seFail sbOk 10 99).2 := by
  have h := checkpoint_not_advanced_on_save_events_error
    [uniswapV2Processor] "ethereum" [logSwap] seFail sbOk 10 99
    [swapEventDecoded] "disk full" rfl (by decide) rfl
  exact ⟨rfl, rfl, h.1, h.2⟩

/-- `WindowChain f e ws` states that `ws` partitions the inclusive block
interval `[f, e]` into consecutive windows: the list starts at `f`, every
window is well-formed and within bounds, successive windows are adjacent,
and the last window ends exactly at `e`; the empty list partitions the
empty interval (`f = e + 1`). -/
inductive WindowChain : Nat → Nat → List (Nat × Nat) → Prop where
  | nil (e : Nat) : WindowChain (e + 1) e []
  | cons {f e t : Nat} {rest : List (Nat × Nat)} (hft : f ≤ t) (hte : t ≤ e)
      (h : WindowChain (t + 1) e rest) : WindowChain f e ((f, t) :: rest)

/-- Empty partition from the boundary equation. -/
theorem WindowChain.nil' {f e : Nat} (h : f = e + 1) : WindowChain f e [] :=
  h ▸ WindowChain.nil e

/-- The producer loop emits nothing once the cursor has reached the end. -/
theorem genWindowsAux_of_ge {bs c fuel f : Nat} (h : ¬ f < c) :
    genWindowsAux bs c fuel f = [] := by
  cases fuel <;> simp [genWindowsAux, h]

/-- For any positive batch size, the fuelled producer loop emits a
partition of `[f, e]` where `e` is the effective end `c` unless `c - f` is
an exact multiple of the batch size, in which case the final block `c` is
left out and the partition stops at `c - 1`. -/
theorem genWindowsAux_chain (bs c : Nat) (hbs : 0 < bs) :
    ∀ fuel f, f < c → c - f ≤ fuel →
      WindowChain f (if (c - f) % bs = 0 then c - 1 else c)
        (genWindowsAux bs c fuel f) := by
  intro fuel
  induction fuel with
  | zero => intro f hf hfuel; omega
  | succ n ih =>
    intro f hf hfuel
    simp only [genWindowsAux]
    rw [if_pos hf]
    by_cases hcase : c ≤ f + bs - 1
    · have hmin : min (f + bs - 1) c = c := by omega
      rw [hmin, genWindowsAux_of_ge (by omega)]
      have hmod : ¬ (c - f) % bs = 0 := by
        rw [Nat.mod_eq_of_lt (by omega)]
        omega
      rw [if_neg hmod]
      exact WindowChain.cons (by omega) (le_refl c) (WindowChain.nil c)
    · have hmin : min (f + bs - 1) c = f + bs - 1 := by omega
      rw [hmin]
      have hsucc : f + bs - 1 + 1 = f + bs := by omega
      by_cases hc2 : f + bs = c
      · rw [genWindowsAux_of_ge (by omega)]
        have hmod : (c - f) % bs = 0 := by
          have hcf : c - f = bs := by omega
          rw [hcf, Nat.mod_self]
        rw [if_pos hmod]
        exact WindowChain.cons (by omega) (by omega) (WindowChain.nil' (by omega))
      · have h' := ih (f + bs) (by omega) (by omega)
        have hres : (c - (f + bs)) % bs = (c - f) % bs := by
          have hcf : c - f = (c - (f + bs)) + bs := by omega
          rw [hcf, Nat.add_mod_right]
        rw [hres, ← hsucc] at h'
        exact WindowChain.cons (by omega) (by split <;> omega) h'

/-- Every window of a partition lies inside the partitioned interval and
has an ordered pair of endpoints. -/
theorem WindowChain.bounds {f e : Nat} {ws : List (Nat × Nat)}
    (h : WindowChain f e ws) :
    ∀ p ∈ ws, f ≤ p.1 ∧ p.1 ≤ p.2 ∧ p.2 ≤ e := by
  induction h with
  | nil e => intro p hp; simp at hp
  | @cons f e t rest hft hte hch ih =>
    intro p hp
    rcases List.mem_cons.mp hp with h1 | h2
    · subst h1; exact ⟨le_refl _, hft, hte⟩
    · obtain ⟨ha, hb, hc⟩ := ih p h2
      exact ⟨by omega, hb, hc⟩

/-- A partition covers exactly the blocks of its interval. -/
theorem WindowChain.cover {f e : Nat} {ws : List (Nat × Nat)}
    (h : WindowChain f e ws) :
    ∀ b : Nat, (f ≤ b ∧ b ≤ e) ↔ ∃ p ∈ ws, p.1 ≤ b ∧ b ≤ p.2 := by
  induction h with
  | nil e => intro b; simp; omega
  | @cons f e t rest hft hte hch ih =>
    intro b
    constructor
    · intro hb
      by_cases hbt : b ≤ t
      · exact ⟨(f, t), List.mem_cons_self _ _, hb.1, hbt⟩
      · obtain ⟨p, hp, hpb⟩ := (ih b).mp ⟨by omega, hb.2⟩
        exact ⟨p, List.mem_cons_of_mem _ hp, hpb⟩
    · intro ⟨p, hp, hpb⟩
      rcases List.mem_cons.mp hp with h1 | h2
      · subst h1
        exact ⟨hpb.1, le_trans hpb.2 hte⟩
      · have := (ih b).mpr ⟨p, h2, hpb⟩
        exact ⟨by omega, this.2⟩

/-- The first window of a non-empty partition starts at the interval start. -/
theorem WindowChain.head_start {f e : Nat} {p : Nat × Nat} {ws : List (Nat × Nat)}
    (h : WindowChain f e (p :: ws)) : p.1 = f := by
  cases h
  rfl

/-- Successive windows of a partition are adjacent (`next.from = prev.to + 1`). -/
theorem WindowChain.chain_adjacent {f e : Nat} {ws : List (Nat × Nat)}
    (h : WindowChain f e ws) :
    List.Chain' (fun p q => q.1 = p.2 + 1) ws := by
  induction h with
  | nil e => exact List.chain'_nil
  | @cons f e t rest hft hte hch ih =>
    rw [List.chain'_cons']
    refine ⟨?_, ih⟩
    intro q hq
    cases rest with
    | nil => simp at hq
    | cons r rs =>
      simp only [List.head?_cons, Option.mem_def, Option.some.injEq] at hq
      subst hq
      exact hch.head_start

/-- Distinct windows of a partition never overlap (they are strictly
ordered). -/
theorem WindowChain.pairwise_disjoint {f e : Nat} {ws : List (Nat × Nat)}
    (h : WindowChain f e ws) :
    List.Pairwise (fun p q => p.2 < q.1) ws := by
  induction h with
  | nil e => exact List.Pairwise.nil
  | @cons f e t rest hft hte hch ih =>
    refine List.Pairwise.cons ?_ ih
    intro q hq
    have hb := hch.bounds q hq
    show t < q.1
    omega

/-- A non-empty range makes the producer emit a first window starting at
the start block. -/
theorem genWindows_head (f c bs : Nat) (hf : f < c) :
    (genWindows f c bs).head?.map Prod.fst = some f := by
  unfold genWindows
  obtain ⟨k, hk⟩ : ∃ k, c - f = k + 1 := ⟨c - f - 1, by omega⟩
  rw [hk]
  simp only [genWindowsAux]
  rw [if_pos hf]
  rfl

/-- C3 counterexample: with start block 1, effective end 3 (head 3,
confirmations 0) and batch size 2 — a start block strictly below the
effective end — the produced windows are exactly `[(1, 2)]`: block 3, the
effective end itself, is covered by no window, because the producer loop
runs only while `fromBlock < currentBlock`. -/
theorem window_partition_counterexample :
    genWindows 1 (effectiveEnd 3 0) 2 = [(1, 2)] ∧
    1 < effectiveEnd 3 0 ∧
    ¬ ∃ p ∈ genWindows 1 (effectiveEnd 3 0) 2, p.1 ≤ 3 ∧ 3 ≤ p.2 := by
  decide

/-- C3 amended: the concrete instance `start=1, head=25, confirmations=0,
batchSize=10` produces exactly `[1,10], [11,20], [21,25]`; in general, for
a positive batch size and a start block strictly below the effective end,
the windows start at the start block, are contiguous and non-overlapping,
and cover exactly the blocks from the start through the effective end —
except that when the batch size exactly divides (end − start) the final
block (the effective end itself) is excluded and coverage stops one block
short. -/
theorem window_partition_amended :
    genWindows 1 25 10 = [(1, 10), (11, 20), (21, 25)] ∧
    ∀ f c bs : Nat, 0 < bs → f < c →
      (genWindows f c bs).head?.map Prod.fst = some f ∧
      List.Chain' (fun p q => q.1 = p.2 + 1) (genWindows f c bs) ∧
      List.Pairwise (fun p q => p.2 < q.1) (genWindows f c bs) ∧
      (∀ b : Nat, (f ≤ b ∧ b ≤ (if (c - f) % bs = 0 then c - 1 else c)) ↔
        ∃ p ∈ genWindows f c bs, p.1 ≤ b ∧ b ≤ p.2) := by
  refine ⟨by decide, ?_⟩
  intro f c bs hbs hf
  have hch : WindowChain f (if (c - f) % bs = 0 then c - 1 else c)
      (genWindows f c bs) :=
    genWindowsAux_chain bs c hbs (c - f) f hf (le_refl _)
  exact ⟨genWindows_head f c bs hf, hch.chain_adjacent, hch.pairwise_disjoint,
    hch.cover⟩

/-- Witness for C3 amended: start 2, effective end 7, batch size 3
(7 − 2 = 5, not a multiple of 3, so coverage reaches 7). -/
theorem window_partition_witness :
    0 < 3 ∧ 2 < 7 ∧
      ((genWindows 2 7 3).head?.map Prod.fst = some 2 ∧
       List.Chain' (fun p q => q.1 = p.2 + 1) (genWindows 2 7 3) ∧
       List.Pairwise (fun p q => p.2 < q.1) (genWindows 2 7 3) ∧
       (∀ b : Nat, (2 ≤ b ∧ b ≤ (if (7 - 2) % 3 = 0 then 7 - 1 else 7)) ↔
         ∃ p ∈ genWindows 2 7 3, p.1 ≤ b ∧ b ≤ p.2)) :=
  ⟨by decide, by decide, window_partition_amended.2 2 7 3 (by decide) (by decide)⟩

end EvmTvl
